import Mathlib

/-!
Shallow embedding of `src/routes.rs` — the read-only HTTP routing layer of the
xch.dev blockchain indexer — together with the parts of the storage interface
(`crate::db`) it calls.  The `Database` type below captures exactly the
interface surface `routes.rs` uses: each method returns `Except DbErr _`
(mirroring the Rust `Result`), and the handlers call `.unwrap()` on every
result, which we model explicitly as a `panicked` handler outcome on `Err`.

Machine integers: heights and limits are Rust `u32`; we model them as `Nat`
and make wrap-around explicit with `% 2^32` where the Rust arithmetic can
overflow (release-profile wrapping semantics).  Rust's
`saturating_sub` coincides with truncated `Nat` subtraction.
-/

namespace Routes

/-- 32-byte digest (block hash / coin id), opaque to this layer; modelled by
its numeric value. -/
abbrev Bytes32 := Nat

/-- Opaque byte payload (`chia::protocol::Bytes`), modelled by a numeric
code since the routing layer never inspects it. -/
abbrev Bytes := Nat

/-- Modelled from the spec: the stored block record (`crate::db::BlockRow` is
not among the given sources).  Its header/body fields are opaque to the
routing layer, so it is a single opaque payload. -/
structure BlockRow where
  payload : Nat
deriving DecidableEq, Repr

/-- Modelled from the spec: the stored coin record (`crate::db::CoinRow` is
not among the given sources); opaque to the routing layer. -/
structure CoinRow where
  payload : Nat
deriving DecidableEq, Repr

/-- Modelled from the spec: the stored coin-spend record.  `routes.rs` reads
its `spent_height`, `puzzle_reveal` and `solution` fields. -/
structure CoinSpendRow where
  spent_height : Nat
  puzzle_reveal : Bytes
  solution : Bytes
deriving DecidableEq, Repr

/-- Storage-layer failure (`StorageFault` in the spec's taxonomy): the error
side of every `Database` method's `Result`. -/
inductive DbErr where
  | storageFault
deriving DecidableEq, Repr

/-- Scan direction (`rocksdb::Direction`). -/
inductive Direction where
  | forward
  | reverse
deriving DecidableEq, Repr

/-- The storage interface exactly as consumed by `routes.rs`: point lookups,
secondary-index lookups and the height-range scan, each fallible with a
storage fault.  A value of this type is one committed database state. -/
structure Database where
  peak_height : Except DbErr (Option Nat)
  block : Nat → Except DbErr (Option BlockRow)
  block_height : Bytes32 → Except DbErr (Option Nat)
  coin : Bytes32 → Except DbErr (Option CoinRow)
  coin_spend : Bytes32 → Except DbErr (Option CoinSpendRow)
  coins_by_created_height : Nat → Except DbErr (List Bytes32)
  coins_by_spent_height : Nat → Except DbErr (List Bytes32)
  coins_by_parent_coin_id : Bytes32 → Except DbErr (List Bytes32)
  blocks_range : Nat → Nat → Direction → Except DbErr (List BlockRow)

/-- Outcome of one handler invocation: a successful JSON response, the
`StatusCode::NOT_FOUND` early return, or an abnormal termination caused by
`.unwrap()` hitting an `Err`. -/
inductive HandlerResult (α : Type) where
  | ok : α → HandlerResult α
  | notFound : HandlerResult α
  | panicked : HandlerResult α
deriving DecidableEq, Repr

/-- `x.unwrap()` followed by the rest of the handler: propagates a storage
fault as an abnormal termination, otherwise continues with the value. -/
def unwrapDb {α β : Type} (x : Except DbErr α) (k : α → HandlerResult β) :
    HandlerResult β :=
  match x with
  | .error _ => .panicked
  | .ok a => k a

/-- Map over a successful handler outcome. -/
def HandlerResult.hmap {α β : Type} (f : α → β) :
    HandlerResult α → HandlerResult β
  | .ok a => .ok (f a)
  | .notFound => .notFound
  | .panicked => .panicked

/-- Response entry for a coin: its id, its stored row (flattened) and its
spend height when spent (`Coin` in `routes.rs`). -/
structure Coin where
  coin_id : Bytes32
  row : CoinRow
  spent_height : Option Nat
deriving DecidableEq, Repr

/-- Response entry for a block: its height label and its stored row
(`Block` in `routes.rs`). -/
structure Block where
  height : Nat
  row : BlockRow
deriving DecidableEq, Repr

/-- Body of `GET /state`. -/
structure StateResponse where
  peak_height : Nat
deriving DecidableEq, Repr

/-- Body of the single-block endpoints. -/
structure BlockResponse where
  block : Block
deriving DecidableEq, Repr

/-- Query parameters of `GET /blocks`. -/
structure BlocksRequest where
  limit : Nat
  start : Option Nat
  reverse : Bool
deriving DecidableEq, Repr

/-- `default_limit` in `routes.rs`: serde default for `limit`. -/
def default_limit : Nat := 50

/-- Body of `GET /blocks`. -/
structure BlocksResponse where
  blocks : List Block
deriving DecidableEq, Repr

/-- Body of the coin-list endpoints. -/
structure CoinsResponse where
  coins : List Coin
deriving DecidableEq, Repr

/-- Body of `GET /coins/id/{coin_id}`. -/
structure CoinResponse where
  coin : Coin
  puzzle_reveal : Option Bytes
  solution : Option Bytes
deriving DecidableEq, Repr

/-- Wrapping `u32` addition (Rust release-profile `+`). -/
def add32 (a b : Nat) : Nat := (a + b) % 4294967296

/-- Wrapping `u32` subtraction (Rust release-profile `-`); for in-range
arguments with `b ≤ a` it equals `a - b`. -/
def sub32 (a b : Nat) : Nat := (a + 4294967296 - b % 4294967296) % 4294967296

/-- Handler of `GET /state`: `peak_height().unwrap().unwrap_or(0)`. -/
def state (db : Database) : HandlerResult StateResponse :=
  unwrapDb db.peak_height fun height => .ok ⟨height.getD 0⟩

/-- Handler of `GET /blocks/latest`. -/
def latest_block (db : Database) : HandlerResult BlockResponse :=
  unwrapDb db.peak_height fun
    | none => .notFound
    | some height =>
      unwrapDb (db.block height) fun
        | none => .notFound
        | some block => .ok ⟨⟨height, block⟩⟩

/-- Handler of `GET /blocks/height/{height}`. -/
def block_by_height (db : Database) (height : Nat) : HandlerResult BlockResponse :=
  unwrapDb (db.block height) fun
    | none => .notFound
    | some block => .ok ⟨⟨height, block⟩⟩

/-- Handler of `GET /blocks/hash/{hash}`: `block_height(hash)` then
`block(height)`. -/
def block_by_hash (db : Database) (hash : Bytes32) : HandlerResult BlockResponse :=
  unwrapDb (db.block_height hash) fun
    | none => .notFound
    | some height =>
      unwrapDb (db.block height) fun
        | none => .notFound
        | some block => .ok ⟨⟨height, block⟩⟩

/-- The `[start, end)` window computation at the top of the `blocks` handler.
`peak` is the already-unwrapped `peak_height()` (read only on the reverse
branch).  Reverse: `end = start.unwrap_or(peak.unwrap_or(0))`,
`start = end.saturating_sub(limit)`.  Forward: `start = start.unwrap_or(0)`,
`end = start + limit` (wrapping `u32` addition). -/
def computeWindow (peak : Option Nat) (query : BlocksRequest) : Nat × Nat :=
  if query.reverse then
    let e := query.start.getD (peak.getD 0)
    (e - query.limit, e)
  else
    let s := query.start.getD 0
    (s, add32 s query.limit)

/-- Handler of `GET /blocks`: compute the window, scan `blocks_range`, and
label the `offset`-th returned row with `end - offset` (reverse) or
`start + offset` (forward), both in wrapping `u32` arithmetic. -/
def blocks (db : Database) (query : BlocksRequest) : HandlerResult BlocksResponse :=
  if query.reverse then
    unwrapDb db.peak_height fun peak =>
      let w := computeWindow peak query
      unwrapDb (db.blocks_range w.1 w.2 Direction.reverse) fun rows =>
        .ok ⟨rows.enum.map fun p => ⟨sub32 w.2 p.1, p.2⟩⟩
  else
    let w := computeWindow none query
    unwrapDb (db.blocks_range w.1 w.2 Direction.forward) fun rows =>
      .ok ⟨rows.enum.map fun p => ⟨add32 w.1 p.1, p.2⟩⟩

/-- The loop body of `coins_by_block`: fold over the concatenated created and
spent id lists, skipping ids already inserted (the `IndexMap` membership
check) and ids whose coin record is absent, resolving each kept id to its
row and optional spend.  `acc` is the map's entries in insertion order. -/
def coinsLoop (db : Database) : List Bytes32 → List Coin → HandlerResult (List Coin)
  | [], acc => .ok acc
  | id :: rest, acc =>
    if acc.any fun c => c.coin_id == id then
      coinsLoop db rest acc
    else
      unwrapDb (db.coin id) fun
        | none => coinsLoop db rest acc
        | some row =>
          unwrapDb (db.coin_spend id) fun spend =>
            coinsLoop db rest (acc ++ [⟨id, row, spend.map (fun s => s.spent_height)⟩])

/-- Handler of `GET /coins/block/{hash}`: resolve the hash to a height, then
collect the coins created or spent at that height, deduplicated. -/
def coins_by_block (db : Database) (hash : Bytes32) : HandlerResult CoinsResponse :=
  unwrapDb (db.block_height hash) fun
    | none => .notFound
    | some height =>
      unwrapDb (db.coins_by_created_height height) fun created =>
        unwrapDb (db.coins_by_spent_height height) fun spent =>
          (coinsLoop db (created ++ spent) []).hmap fun coins => ⟨coins⟩

/-- The `filter_map` body of `coins_by_parent`: resolve each child id to its
coin row (skipping ids with no record) and optional spend, in order. -/
def resolveCoins (db : Database) : List Bytes32 → HandlerResult (List Coin)
  | [] => .ok []
  | id :: rest =>
    unwrapDb (db.coin id) fun
      | none => resolveCoins db rest
      | some row =>
        unwrapDb (db.coin_spend id) fun spend =>
          (resolveCoins db rest).hmap
            fun tl => ⟨id, row, spend.map (fun s => s.spent_height)⟩ :: tl

/-- Handler of `GET /coins/children/{coin_id}`. -/
def coins_by_parent (db : Database) (coin_id : Bytes32) : HandlerResult CoinsResponse :=
  unwrapDb (db.coins_by_parent_coin_id coin_id) fun ids =>
    (resolveCoins db ids).hmap fun coins => ⟨coins⟩

/-- Handler of `GET /coins/id/{coin_id}`: the coin plus, when a spend exists,
its `puzzle_reveal`, `solution` and `spent_height`. -/
def coin_by_id (db : Database) (coin_id : Bytes32) : HandlerResult CoinResponse :=
  unwrapDb (db.coin coin_id) fun
    | none => .notFound
    | some coin =>
      unwrapDb (db.coin_spend coin_id) fun
        | some spend =>
          .ok ⟨⟨coin_id, coin, some spend.spent_height⟩,
            some spend.puzzle_reveal, some spend.solution⟩
        | none => .ok ⟨⟨coin_id, coin, none⟩, none, none⟩

/-- Modelled from the spec: the Range Scanner contract of §4.5/§8 for the
block-by-height index (`Database::blocks_range` in `crate::db` is not among
the given sources).  Ascending iterates the entries present at heights in
`[s, e)` in increasing order; descending is the mirrored traversal, so
`scan(start=10, end=15, descending)` yields heights `14,13,12,11,10`. -/
def scanSpec (tbl : Nat → Option BlockRow) (s e : Nat) : Direction → List BlockRow
  | .forward => (List.range (e - s)).filterMap fun i => tbl (s + i)
  | .reverse => ((List.range (e - s)).filterMap fun i => tbl (s + i)).reverse

/-- A database state where every lookup succeeds with an empty result: no
blocks have been ingested. -/
def baseDb : Database where
  peak_height := .ok none
  block := fun _ => .ok none
  block_height := fun _ => .ok none
  coin := fun _ => .ok none
  coin_spend := fun _ => .ok none
  coins_by_created_height := fun _ => .ok []
  coins_by_spent_height := fun _ => .ok []
  coins_by_parent_coin_id := fun _ => .ok []
  blocks_range := fun _ _ _ => .ok []

/-- Block table of a 20-block demonstration chain: the row stored at height
`h` carries payload `h`, so each row names its own height. -/
def demoTbl (h : Nat) : Option BlockRow :=
  if h < 20 then some ⟨h⟩ else none

/-- A committed database state holding the 20-block demonstration chain,
with `blocks_range` given by the spec's scan contract. -/
def demoDb : Database :=
  { baseDb with
    peak_height := .ok (some 19)
    block := fun h => .ok (demoTbl h)
    blocks_range := fun s e d => .ok (scanSpec demoTbl s e d) }

/-- A database state whose genuine peak height is `0` (exactly the genesis
block has been ingested). -/
def zeroPeakDb : Database :=
  { baseDb with
    peak_height := .ok (some 0)
    block := fun h => if h = 0 then .ok (some ⟨0⟩) else .ok none }

/-- A database state whose every method reports a storage fault. -/
def faultyDb : Database where
  peak_height := .error .storageFault
  block := fun _ => .error .storageFault
  block_height := fun _ => .error .storageFault
  coin := fun _ => .error .storageFault
  coin_spend := fun _ => .error .storageFault
  coins_by_created_height := fun _ => .error .storageFault
  coins_by_spent_height := fun _ => .error .storageFault
  coins_by_parent_coin_id := fun _ => .error .storageFault
  blocks_range := fun _ _ _ => .error .storageFault

/-- A small concrete coin set: block hash `100` is at height `7`; coins `1`
and `2` were created there and coin `2` was also spent there (so it appears
in both index lists); coin `3` is a child of parent `9` whose record is
missing from the primary store (a dangling index entry). -/
def coinDb : Database :=
  { baseDb with
    block_height := fun h => if h = 100 then .ok (some 7) else .ok none
    coin := fun id =>
      if id = 1 then .ok (some ⟨11⟩)
      else if id = 2 then .ok (some ⟨22⟩)
      else .ok none
    coin_spend := fun id =>
      if id = 2 then .ok (some ⟨7, 202, 203⟩) else .ok none
    coins_by_created_height := fun h => if h = 7 then .ok [1, 2] else .ok []
    coins_by_spent_height := fun h => if h = 7 then .ok [2] else .ok []
    coins_by_parent_coin_id := fun p =>
      if p = 9 then .ok [1, 3] else .ok [] }

/-- A database state whose coin records are intact but whose spend lookups
report a storage fault, exercising a fault at a handler's second lookup. -/
def spendFaultDb : Database :=
  { coinDb with coin_spend := fun _ => .error .storageFault }

/-- A committed state for the hash-lookup witness: hash `55` resolves to
height `3`, where the demonstration chain's row is stored. -/
def hashDb : Database :=
  { demoDb with
    block_height := fun h => if h = 55 then .ok (some 3) else .ok none }

/-- Correct resolution of one response entry against a database state: the
entry carries the coin's stored row, and its `spent_height` is the stored
spend's height when a spend exists and `none` otherwise. -/
abbrev goodEntry (db : Database) (c : Coin) : Prop :=
  db.coin c.coin_id = .ok (some c.row) ∧
  ∃ s, db.coin_spend c.coin_id = .ok s ∧
    c.spent_height = s.map (fun x => x.spent_height)

/-- Loop invariant of the `coins_by_block` fold: provided no lookup along the
id list reports a storage fault, the fold succeeds and extends the
accumulated entries with one correctly-resolved entry per distinct id whose
coin record is present, never duplicating an id. -/
theorem coinsLoop_spec (db : Database) (ids : List Bytes32) :
    ∀ acc : List Coin,
      (∀ id ∈ ids, (∃ o, db.coin id = .ok o) ∧ ∃ s, db.coin_spend id = .ok s) →
      (∀ c ∈ acc, goodEntry db c) →
      (acc.map fun c => c.coin_id).Nodup →
      ∃ out, coinsLoop db ids acc = .ok out ∧
        (out.map fun c => c.coin_id).Nodup ∧
        (∀ x, x ∈ out.map (fun c => c.coin_id) ↔
          x ∈ acc.map (fun c => c.coin_id) ∨
            (x ∈ ids ∧ ∃ r, db.coin x = .ok (some r))) ∧
        ∀ c ∈ out, goodEntry db c := by
  induction ids with
  | nil =>
    intro acc _ hacc hnd
    exact ⟨acc, rfl, hnd, by simp, hacc⟩
  | cons id rest ih =>
    intro acc hids hacc hnd
    by_cases hmem : (acc.any fun c => c.coin_id == id) = true
    · obtain ⟨out, hout, hnd2, hiff, hgood⟩ :=
        ih acc (fun i hi => hids i (List.mem_cons_of_mem _ hi)) hacc hnd
      refine ⟨out, ?_, hnd2, ?_, hgood⟩
      · simp only [coinsLoop]
        rw [if_pos hmem]
        exact hout
      · intro x
        rw [hiff]
        constructor
        · rintro (hx | ⟨hx1, hx2⟩)
          · exact Or.inl hx
          · exact Or.inr ⟨List.mem_cons_of_mem _ hx1, hx2⟩
        · rintro (hx | ⟨hx1, hx2⟩)
          · exact Or.inl hx
          · rcases List.mem_cons.mp hx1 with rfl | hx1'
            · obtain ⟨c, hc, hceq⟩ := List.any_eq_true.mp hmem
              have hcx : c.coin_id = x := by simpa using hceq
              exact Or.inl (List.mem_map.mpr ⟨c, hc, hcx⟩)
            · exact Or.inr ⟨hx1', hx2⟩
    · obtain ⟨⟨o, ho⟩, s, hs⟩ := hids id (List.mem_cons_self id rest)
      have hidnot : id ∉ acc.map fun c => c.coin_id := by
        intro hx
        apply hmem
        rw [List.any_eq_true]
        obtain ⟨c, hc, hcid⟩ := List.mem_map.mp hx
        exact ⟨c, hc, by simp [hcid]⟩
      cases o with
      | none =>
        obtain ⟨out, hout, hnd2, hiff, hgood⟩ :=
          ih acc (fun i hi => hids i (List.mem_cons_of_mem _ hi)) hacc hnd
        have hstep : coinsLoop db (id :: rest) acc = coinsLoop db rest acc := by
          simp only [coinsLoop]
          rw [if_neg hmem, ho]
          rfl
        refine ⟨out, by rw [hstep]; exact hout, hnd2, ?_, hgood⟩
        intro x
        rw [hiff]
        constructor
        · rintro (hx | ⟨hx1, hx2⟩)
          · exact Or.inl hx
          · exact Or.inr ⟨List.mem_cons_of_mem _ hx1, hx2⟩
        · rintro (hx | ⟨hx1, hx2⟩)
          · exact Or.inl hx
          · rcases List.mem_cons.mp hx1 with rfl | hx1'
            · obtain ⟨r, hr⟩ := hx2
              rw [ho] at hr
              simp at hr
            · exact Or.inr ⟨hx1', hx2⟩
      | some row =>
        have hstep : coinsLoop db (id :: rest) acc
            = coinsLoop db rest
                (acc ++ [⟨id, row, s.map fun x => x.spent_height⟩]) := by
          simp only [coinsLoop]
          rw [if_neg hmem, ho]
          show unwrapDb (db.coin_spend id) _ = _
          rw [hs]
          rfl
        have hacc' : ∀ c ∈ acc ++ [⟨id, row, s.map fun x => x.spent_height⟩],
            goodEntry db c := by
          intro c hc
          rcases List.mem_append.mp hc with hc' | hc'
          · exact hacc c hc'
          · rcases List.mem_singleton.mp hc' with rfl
            exact ⟨ho, s, hs, rfl⟩
        have hnd' : ((acc ++ [(⟨id, row, s.map fun x => x.spent_height⟩ : Coin)]).map
            fun c => c.coin_id).Nodup := by
          rw [List.map_append, List.map_singleton, List.nodup_append]
          refine ⟨hnd, List.nodup_singleton _, ?_⟩
          intro a ha hb
          rw [List.mem_singleton] at hb
          subst hb
          exact hidnot ha
        obtain ⟨out, hout, hnd2, hiff, hgood⟩ :=
          ih (acc ++ [⟨id, row, s.map fun x => x.spent_height⟩])
            (fun i hi => hids i (List.mem_cons_of_mem _ hi)) hacc' hnd'
        refine ⟨out, by rw [hstep]; exact hout, hnd2, ?_, hgood⟩
        intro x
        rw [hiff, List.map_append, List.map_singleton]
        constructor
        · rintro (hx | ⟨hx1, hx2⟩)
          · rcases List.mem_append.mp hx with hx' | hx'
            · exact Or.inl hx'
            · rcases List.mem_singleton.mp hx' with rfl
              exact Or.inr ⟨List.mem_cons_self _ _, row, ho⟩
          · exact Or.inr ⟨List.mem_cons_of_mem _ hx1, hx2⟩
        · rintro (hx | ⟨hx1, hx2⟩)
          · exact Or.inl (List.mem_append.mpr (Or.inl hx))
          · rcases List.mem_cons.mp hx1 with rfl | hx1'
            · exact Or.inl (List.mem_append.mpr (Or.inr (List.mem_singleton.mpr rfl)))
            · exact Or.inr ⟨hx1', hx2⟩

/-- Specification of the `filter_map` of `coins_by_parent`: provided no
lookup along the id list reports a storage fault, it succeeds, keeps exactly
the ids whose coin record is present, and resolves each kept id
correctly. -/
theorem resolveCoins_spec (db : Database) (ids : List Bytes32)
    (hids : ∀ id ∈ ids, (∃ o, db.coin id = .ok o) ∧ ∃ s, db.coin_spend id = .ok s) :
    ∃ out, resolveCoins db ids = .ok out ∧
      (∀ x, x ∈ out.map (fun c => c.coin_id) ↔
        x ∈ ids ∧ ∃ r, db.coin x = .ok (some r)) ∧
      ∀ c ∈ out, goodEntry db c := by
  induction ids with
  | nil => exact ⟨[], rfl, by simp, by simp⟩
  | cons id rest ih =>
    obtain ⟨⟨o, ho⟩, s, hs⟩ := hids id (List.mem_cons_self id rest)
    obtain ⟨out, hout, hiff, hgood⟩ :=
      ih fun i hi => hids i (List.mem_cons_of_mem _ hi)
    cases o with
    | none =>
      have hstep : resolveCoins db (id :: rest) = resolveCoins db rest := by
        simp only [resolveCoins]
        rw [ho]
        rfl
      refine ⟨out, by rw [hstep]; exact hout, ?_, hgood⟩
      intro x
      rw [hiff]
      constructor
      · rintro ⟨hx1, hx2⟩
        exact ⟨List.mem_cons_of_mem _ hx1, hx2⟩
      · rintro ⟨hx1, hx2⟩
        rcases List.mem_cons.mp hx1 with rfl | hx1'
        · obtain ⟨r, hr⟩ := hx2
          rw [ho] at hr
          simp at hr
        · exact ⟨hx1', hx2⟩
    | some row =>
      have hstep : resolveCoins db (id :: rest)
          = .ok (⟨id, row, s.map fun x => x.spent_height⟩ :: out) := by
        simp only [resolveCoins]
        rw [ho]
        show unwrapDb (db.coin_spend id) _ = _
        rw [hs]
        show (resolveCoins db rest).hmap _ = _
        rw [hout]
        rfl
      refine ⟨⟨id, row, s.map fun x => x.spent_height⟩ :: out, hstep, ?_, ?_⟩
      · intro x
        simp only [List.map_cons, List.mem_cons]
        constructor
        · rintro (rfl | hx)
          · exact ⟨Or.inl rfl, row, ho⟩
          · obtain ⟨hx1, hx2⟩ := (hiff x).mp hx
            exact ⟨Or.inr hx1, hx2⟩
        · rintro ⟨rfl | hx1', hx2⟩
          · exact Or.inl rfl
          · exact Or.inr ((hiff x).mpr ⟨hx1', hx2⟩)
      · intro c hc
        rcases List.mem_cons.mp hc with rfl | hc'
        · exact ⟨ho, s, hs, rfl⟩
        · exact hgood c hc'

/-- Claim C1 (failing-input evaluation): on a chain of 20 blocks whose row at
height `h` carries payload `h`, the request `reverse=true, start=15, limit=5`
computes the window `[10,15)`; the spec's descending scan returns the rows
stored at heights `14,13,12,11,10`, but the handler labels the `i`-th row
with height `end - i = 15 - i`, so every response entry's `height` label is
one above the height of the row it carries. -/
theorem c1_reverse_labels_off_by_one :
    blocks demoDb ⟨5, some 15, true⟩ =
      .ok ⟨[⟨15, ⟨14⟩⟩, ⟨14, ⟨13⟩⟩, ⟨13, ⟨12⟩⟩, ⟨12, ⟨11⟩⟩, ⟨11, ⟨10⟩⟩]⟩ ∧
    scanSpec demoTbl 10 15 Direction.reverse = [⟨14⟩, ⟨13⟩, ⟨12⟩, ⟨11⟩, ⟨10⟩] := by
  decide

/-- Claim C3 (counterexample): with the default limit 50 and
`start = 4294967295` in the forward direction, the computed window end wraps
to `49`, so the window is not `[start, start + 50)`. -/
theorem c3_counterexample :
    computeWindow none ⟨default_limit, some 4294967295, false⟩ = (4294967295, 49) ∧
    (4294967295 : Nat) + default_limit ≠ 49 := by
  decide

/-- Claim C3 (amended): when the limit parameter is omitted (serde default
50), the computed window is `[start, start + 50)` in the forward direction
provided `start + 50` does not exceed `u32::MAX` (`[0, 50)` when `start` is
also omitted), and `[end - 50, end)` with saturating subtraction in the
reverse direction, where `end` is the supplied start or else the peak. -/
theorem c3_default_window (peak : Option Nat) (s0 : Option Nat) :
    (∀ s, s0 = some s → s + default_limit < 4294967296 →
      computeWindow peak ⟨default_limit, s0, false⟩ = (s, s + default_limit)) ∧
    (s0 = none → computeWindow peak ⟨default_limit, s0, false⟩ = (0, default_limit)) ∧
    (computeWindow peak ⟨default_limit, s0, true⟩ =
      (s0.getD (peak.getD 0) - default_limit, s0.getD (peak.getD 0))) := by
  refine ⟨?_, ?_, ?_⟩
  · intro s hs hlt
    subst hs
    have hmod : add32 s default_limit = s + default_limit := by
      simp only [add32, default_limit] at *
      omega
    show (s, add32 s default_limit) = (s, s + default_limit)
    rw [hmod]
  · intro hs
    subst hs
    have hmod : add32 0 default_limit = default_limit := by
      simp [add32, default_limit]
    show (0, add32 0 default_limit) = (0, default_limit)
    rw [hmod]
  · rfl

/-- Claim C3 witness: concrete instances of the amended window computation. -/
theorem c3_default_window_witness :
    computeWindow (some 19) ⟨default_limit, some 10, false⟩ = (10, 10 + default_limit) ∧
    computeWindow (some 19) ⟨default_limit, none, true⟩ = (0, 19) :=
  ⟨(c3_default_window (some 19) (some 10)).1 10 rfl (by decide),
   (c3_default_window (some 19) none).2.2⟩

/-- Claim C4: the coin-detail response exposes `puzzle_reveal`, `solution`
and `spent_height` exactly when a spend record exists, and then they equal
that record's fields; otherwise all three are `none`. -/
theorem c4_coin_by_id_spend_fields (db : Database) (cid : Bytes32) (row : CoinRow)
    (hc : db.coin cid = .ok (some row)) :
    (∀ sp, db.coin_spend cid = .ok (some sp) →
      coin_by_id db cid =
        .ok ⟨⟨cid, row, some sp.spent_height⟩, some sp.puzzle_reveal, some sp.solution⟩) ∧
    (db.coin_spend cid = .ok none →
      coin_by_id db cid = .ok ⟨⟨cid, row, none⟩, none, none⟩) := by
  constructor
  · intro sp hsp
    rw [coin_by_id, hc]
    show unwrapDb (db.coin_spend cid) _ = _
    rw [hsp]
    rfl
  · intro hsp
    rw [coin_by_id, hc]
    show unwrapDb (db.coin_spend cid) _ = _
    rw [hsp]
    rfl

/-- Claim C4 witness: a spent coin exposes the stored spend's payloads, an
unspent coin exposes none. -/
theorem c4_coin_by_id_witness :
    coin_by_id coinDb 2 = .ok ⟨⟨2, ⟨22⟩, some 7⟩, some 202, some 203⟩ ∧
    coin_by_id coinDb 1 = .ok ⟨⟨1, ⟨11⟩, none⟩, none, none⟩ :=
  ⟨(c4_coin_by_id_spend_fields coinDb 2 ⟨22⟩ rfl).1 ⟨7, 202, 203⟩ rfl,
   (c4_coin_by_id_spend_fields coinDb 1 ⟨11⟩ rfl).2 rfl⟩

/-- Claim C5: fetching a block by hash is `block(block_height(hash))`: it
returns the block labelled with the looked-up height exactly when both
lookups succeed, and reports not-found when either is absent — absence is a
`notFound` response, never a storage fault. -/
theorem c5_block_by_hash_composes (db : Database) (hash : Bytes32) :
    (db.block_height hash = .ok none → block_by_hash db hash = .notFound) ∧
    (∀ h, db.block_height hash = .ok (some h) → db.block h = .ok none →
      block_by_hash db hash = .notFound) ∧
    (∀ h row, db.block_height hash = .ok (some h) → db.block h = .ok (some row) →
      block_by_hash db hash = .ok ⟨⟨h, row⟩⟩) := by
  refine ⟨?_, ?_, ?_⟩
  · intro h1
    rw [block_by_hash, h1]
    rfl
  · intro h h1 h2
    rw [block_by_hash, h1]
    show unwrapDb (db.block h) _ = _
    rw [h2]
    rfl
  · intro h row h1 h2
    rw [block_by_hash, h1]
    show unwrapDb (db.block h) _ = _
    rw [h2]
    rfl

/-- Claim C5 witness: hash `55` resolves to height `3` and returns that
block; hash `56` is unknown and yields not-found. -/
theorem c5_block_by_hash_witness :
    block_by_hash hashDb 55 = .ok ⟨⟨3, ⟨3⟩⟩⟩ ∧ block_by_hash hashDb 56 = .notFound :=
  ⟨(c5_block_by_hash_composes hashDb 55).2.2 3 ⟨3⟩ rfl rfl,
   (c5_block_by_hash_composes hashDb 56).1 rfl⟩

/-- Claim C6 (counterexample): a storage fault is not propagated as an error
value distinct from not-found — the handler's `.unwrap()` turns it into an
abnormal termination (panic). -/
theorem c6_counterexample :
    faultyDb.block 0 = .error .storageFault ∧
    block_by_height faultyDb 0 = .panicked :=
  ⟨rfl, rfl⟩

/-- Claim C6 (amended): for every read endpoint, when an underlying database
call reports a storage fault, the handler aborts abnormally (the `.unwrap()`
panics); the fault is never swallowed into a successful or not-found
response — in particular `state` does not fold it into the `unwrap_or(0)`
default — never retried, and not returned as an error value either.  Covered
call sites: `peak_height` in `state`, `latest_block` and reverse `blocks`
(read eagerly there even when `start` is supplied); `block` in
`block_by_height`; `block_height` in `block_by_hash` and `coins_by_block`;
`blocks_range` in forward `blocks`; `coins_by_parent_coin_id` in
`coins_by_parent`; and both `coin` and `coin_spend` in `coin_by_id`. -/
theorem c6_fault_aborts_handler (db : Database) :
    (∀ e, db.peak_height = .error e →
      state db = .panicked ∧ latest_block db = .panicked) ∧
    (∀ h e, db.block h = .error e → block_by_height db h = .panicked) ∧
    (∀ hsh e, db.block_height hsh = .error e →
      block_by_hash db hsh = .panicked ∧ coins_by_block db hsh = .panicked) ∧
    (∀ q e, q.reverse = true → db.peak_height = .error e →
      blocks db q = .panicked) ∧
    (∀ q e, q.reverse = false →
      db.blocks_range (computeWindow none q).1 (computeWindow none q).2
        Direction.forward = .error e →
      blocks db q = .panicked) ∧
    (∀ pid e, db.coins_by_parent_coin_id pid = .error e →
      coins_by_parent db pid = .panicked) ∧
    (∀ cid e, db.coin cid = .error e → coin_by_id db cid = .panicked) ∧
    (∀ cid r e, db.coin cid = .ok (some r) → db.coin_spend cid = .error e →
      coin_by_id db cid = .panicked) := by
  refine ⟨?_, ?_, ?_, ?_, ?_, ?_, ?_, ?_⟩
  · intro e hpk
    constructor
    · rw [state, hpk]
      rfl
    · rw [latest_block, hpk]
      rfl
  · intro h e hb
    rw [block_by_height, hb]
    rfl
  · intro hsh e hb
    constructor
    · rw [block_by_hash, hb]
      rfl
    · rw [coins_by_block, hb]
      rfl
  · intro q e hq hpk
    rw [blocks, if_pos hq, hpk]
    rfl
  · intro q e hq hr
    rw [blocks, if_neg (by simp [hq])]
    show unwrapDb (db.blocks_range (computeWindow none q).1 (computeWindow none q).2
      Direction.forward) _ = _
    rw [hr]
    rfl
  · intro pid e hp
    rw [coins_by_parent, hp]
    rfl
  · intro cid e hc
    rw [coin_by_id, hc]
    rfl
  · intro cid r e hc hsp
    rw [coin_by_id, hc]
    show unwrapDb (db.coin_spend cid) _ = _
    rw [hsp]
    rfl

/-- Claim C6 witness: the all-faulty database makes every endpoint's handler
panic, and a database whose spend lookup alone faults makes the coin-detail
handler panic at its second lookup. -/
theorem c6_fault_aborts_handler_witness :
    state faultyDb = .panicked ∧
    latest_block faultyDb = .panicked ∧
    block_by_height faultyDb 1 = .panicked ∧
    block_by_hash faultyDb 2 = .panicked ∧
    coins_by_block faultyDb 2 = .panicked ∧
    blocks faultyDb ⟨50, none, true⟩ = .panicked ∧
    blocks faultyDb ⟨50, none, false⟩ = .panicked ∧
    coins_by_parent faultyDb 3 = .panicked ∧
    coin_by_id faultyDb 4 = .panicked ∧
    coin_by_id spendFaultDb 1 = .panicked :=
  ⟨((c6_fault_aborts_handler faultyDb).1 .storageFault rfl).1,
   ((c6_fault_aborts_handler faultyDb).1 .storageFault rfl).2,
   (c6_fault_aborts_handler faultyDb).2.1 1 .storageFault rfl,
   ((c6_fault_aborts_handler faultyDb).2.2.1 2 .storageFault rfl).1,
   ((c6_fault_aborts_handler faultyDb).2.2.1 2 .storageFault rfl).2,
   (c6_fault_aborts_handler faultyDb).2.2.2.1 ⟨50, none, true⟩ .storageFault rfl rfl,
   (c6_fault_aborts_handler faultyDb).2.2.2.2.1 ⟨50, none, false⟩ .storageFault rfl rfl,
   (c6_fault_aborts_handler faultyDb).2.2.2.2.2.1 3 .storageFault rfl,
   (c6_fault_aborts_handler faultyDb).2.2.2.2.2.2.1 4 .storageFault rfl,
   (c6_fault_aborts_handler spendFaultDb).2.2.2.2.2.2.2 1 ⟨11⟩ .storageFault rfl rfl⟩

/-- Claim C7 (counterexample): the state endpoint returns `peak_height: 0`
both for the empty store (peak absent) and for a store whose genuine peak is
`0`, so the two are indistinguishable in the response. -/
theorem c7_counterexample :
    state baseDb = state zeroPeakDb ∧
    baseDb.peak_height = .ok none ∧
    zeroPeakDb.peak_height = .ok (some 0) :=
  ⟨rfl, rfl, rfl⟩

/-- Claim C7 (amended): the state endpoint returns `peak_height()` with
absence defaulted to `0` (`unwrap_or(0)`); it does not distinguish an empty
store from a store whose peak height is `0`. -/
theorem c7_state_defaults_peak_to_zero (db : Database) (p : Option Nat)
    (hp : db.peak_height = .ok p) :
    state db = .ok ⟨p.getD 0⟩ := by
  rw [state, hp]
  rfl

/-- Claim C7 witness: the empty store reports peak height `0`. -/
theorem c7_state_witness : state baseDb = .ok ⟨0⟩ :=
  c7_state_defaults_peak_to_zero baseDb none rfl

/-- Claim C8: the block-by-height and coin-detail (coin plus coin-spend)
read paths depend on nothing but the key and the committed database state
they read, so two invocations against the same committed state — even via
database values that agree on those methods — return identical results. -/
theorem c8_reads_idempotent (db db2 : Database) (h : Nat) (cid : Bytes32)
    (hb : db2.block = db.block) (hc : db2.coin = db.coin)
    (hs : db2.coin_spend = db.coin_spend) :
    block_by_height db2 h = block_by_height db h ∧
    coin_by_id db2 cid = coin_by_id db cid := by
  rw [block_by_height, block_by_height, coin_by_id, coin_by_id, hb, hc, hs]
  exact ⟨rfl, rfl⟩

/-- Claim C8 witness: `hashDb` and `demoDb` share block and coin state, so
the read handlers agree on them. -/
theorem c8_reads_idempotent_witness :
    block_by_height hashDb 3 = block_by_height demoDb 3 ∧
    coin_by_id hashDb 5 = coin_by_id demoDb 5 :=
  c8_reads_idempotent demoDb hashDb 3 5 rfl rfl rfl

/-- Claim C9: whenever `start > u32::MAX - limit`, the forward window end
`start + limit` overflows: modelled as wrap-around modulo `2^32`, the
computed end equals `start + limit - 2^32` and is strictly smaller than
`start`. -/
theorem c9_forward_window_overflow (s limit : Nat) (hs : s < 4294967296)
    (hl : limit < 4294967296) (hov : 4294967295 - limit < s) :
    (computeWindow none ⟨limit, some s, false⟩).2 = s + limit - 4294967296 ∧
    (computeWindow none ⟨limit, some s, false⟩).2 < s := by
  simp only [computeWindow, add32, Bool.false_eq_true, if_false, Option.getD_some]
  omega

/-- Claim C9 witness: `start = 4294967295` with the default limit overflows,
wrapping the window end to `49`. -/
theorem c9_forward_window_overflow_witness :
    (computeWindow none ⟨50, some 4294967295, false⟩).2 = 4294967295 + 50 - 4294967296 ∧
    (computeWindow none ⟨50, some 4294967295, false⟩).2 < 4294967295 :=
  c9_forward_window_overflow 4294967295 50 (by decide) (by decide) (by decide)

/-- Claim C2: when the hash resolves to height `h` and no lookup faults or
dangles, the coins-touched-by-block response is exactly the deduplicated
union of the created-at-`h` and spent-at-`h` index lists — no coin id
appears twice — and each entry carries the coin's stored row together with
its spend's height when a spend exists and `none` otherwise. -/
theorem c2_coins_by_block_union (db : Database) (hash : Bytes32) (h : Nat)
    (created spent : List Bytes32)
    (hh : db.block_height hash = .ok (some h))
    (hcr : db.coins_by_created_height h = .ok created)
    (hsp : db.coins_by_spent_height h = .ok spent)
    (hpres : ∀ id ∈ created ++ spent, ∃ r, db.coin id = .ok (some r))
    (hspend : ∀ id ∈ created ++ spent, ∃ s, db.coin_spend id = .ok s) :
    ∃ out, coins_by_block db hash = .ok ⟨out⟩ ∧
      (out.map fun c => c.coin_id).Nodup ∧
      (∀ x, x ∈ out.map (fun c => c.coin_id) ↔ x ∈ created ∨ x ∈ spent) ∧
      ∀ c ∈ out, db.coin c.coin_id = .ok (some c.row) ∧
        ∃ s, db.coin_spend c.coin_id = .ok s ∧
          c.spent_height = s.map fun x => x.spent_height := by
  have hids : ∀ id ∈ created ++ spent,
      (∃ o, db.coin id = .ok o) ∧ ∃ s, db.coin_spend id = .ok s := by
    intro i hi
    obtain ⟨r, hr⟩ := hpres i hi
    exact ⟨⟨some r, hr⟩, hspend i hi⟩
  obtain ⟨out, hout, hnd, hiff, hgood⟩ :=
    coinsLoop_spec db (created ++ spent) [] hids (by simp) (by simp)
  refine ⟨out, ?_, hnd, ?_, hgood⟩
  · rw [coins_by_block, hh]
    show unwrapDb (db.coins_by_created_height h) _ = _
    rw [hcr]
    show unwrapDb (db.coins_by_spent_height h) _ = _
    rw [hsp]
    show (coinsLoop db (created ++ spent) []).hmap _ = _
    rw [hout]
    rfl
  · intro x
    rw [hiff]
    constructor
    · rintro (hx | ⟨hx, _⟩)
      · simp at hx
      · exact List.mem_append.mp hx
    · intro hx
      exact Or.inr ⟨List.mem_append.mpr hx, hpres x (List.mem_append.mpr hx)⟩

/-- Claim C2 witness: block hash `100` is at height `7`, where coins `1, 2`
were created and coin `2` was spent; the id lists overlap at `2` and the
response is their deduplicated union with correct rows and spend heights. -/
theorem c2_coins_by_block_union_witness :
    ∃ out, coins_by_block coinDb 100 = .ok ⟨out⟩ ∧
      (out.map fun c => c.coin_id).Nodup ∧
      (∀ x, x ∈ out.map (fun c => c.coin_id) ↔ x ∈ [1, 2] ∨ x ∈ [2]) ∧
      ∀ c ∈ out, coinDb.coin c.coin_id = .ok (some c.row) ∧
        ∃ s, coinDb.coin_spend c.coin_id = .ok s ∧
          c.spent_height = s.map fun x => x.spent_height :=
  c2_coins_by_block_union coinDb 100 7 [1, 2] [2] rfl rfl rfl
    (by
      intro id hid
      simp only [List.mem_append, List.mem_cons, List.not_mem_nil, or_false] at hid
      rcases hid with (rfl | rfl) | rfl
      · exact ⟨⟨11⟩, rfl⟩
      · exact ⟨⟨22⟩, rfl⟩
      · exact ⟨⟨22⟩, rfl⟩)
    (by
      intro id hid
      simp only [List.mem_append, List.mem_cons, List.not_mem_nil, or_false] at hid
      rcases hid with (rfl | rfl) | rfl
      · exact ⟨none, rfl⟩
      · exact ⟨some ⟨7, 202, 203⟩, rfl⟩
      · exact ⟨some ⟨7, 202, 203⟩, rfl⟩)

/-- Claim C10: neither the children-of-a-coin query nor the
coins-touched-by-block query fails because of a dangling secondary-index
entry — provided the underlying lookups do not fault, both return a
successful response whose ids are exactly the indexed ids with a present
coin record, so an indexed id with no record is silently omitted. -/
theorem c10_dangling_entries_omitted (db : Database) (pid : Bytes32)
    (ids : List Bytes32) (hash : Bytes32) (h : Nat) (created spent : List Bytes32)
    (hp : db.coins_by_parent_coin_id pid = .ok ids)
    (hh : db.block_height hash = .ok (some h))
    (hcr : db.coins_by_created_height h = .ok created)
    (hsp : db.coins_by_spent_height h = .ok spent)
    (h1 : ∀ id ∈ ids, (∃ o, db.coin id = .ok o) ∧ ∃ s, db.coin_spend id = .ok s)
    (h2 : ∀ id ∈ created ++ spent,
      (∃ o, db.coin id = .ok o) ∧ ∃ s, db.coin_spend id = .ok s) :
    (∃ out, coins_by_parent db pid = .ok ⟨out⟩ ∧
      ∀ x, x ∈ out.map (fun c => c.coin_id) ↔
        x ∈ ids ∧ ∃ r, db.coin x = .ok (some r)) ∧
    (∃ out, coins_by_block db hash = .ok ⟨out⟩ ∧
      ∀ x, x ∈ out.map (fun c => c.coin_id) ↔
        x ∈ created ++ spent ∧ ∃ r, db.coin x = .ok (some r)) := by
  constructor
  · obtain ⟨out, hout, hiff, _⟩ := resolveCoins_spec db ids h1
    refine ⟨out, ?_, hiff⟩
    rw [coins_by_parent, hp]
    show (resolveCoins db ids).hmap _ = _
    rw [hout]
    rfl
  · obtain ⟨out, hout, _, hiff, _⟩ :=
      coinsLoop_spec db (created ++ spent) [] h2 (by simp) (by simp)
    refine ⟨out, ?_, ?_⟩
    · rw [coins_by_block, hh]
      show unwrapDb (db.coins_by_created_height h) _ = _
      rw [hcr]
      show unwrapDb (db.coins_by_spent_height h) _ = _
      rw [hsp]
      show (coinsLoop db (created ++ spent) []).hmap _ = _
      rw [hout]
      rfl
    · intro x
      rw [hiff]
      constructor
      · rintro (hx | hx)
        · simp at hx
        · exact hx
      · exact fun hx => Or.inr hx

/-- Claim C10 witness: parent `9` has indexed children `1` and `3`, but coin
`3` has no record in the primary store; the children query still succeeds
and its response contains `1` but omits the dangling `3`. -/
theorem c10_dangling_entries_omitted_witness :
    (∃ out, coins_by_parent coinDb 9 = .ok ⟨out⟩ ∧
      ∀ x, x ∈ out.map (fun c => c.coin_id) ↔
        x ∈ [1, 3] ∧ ∃ r, coinDb.coin x = .ok (some r)) ∧
    (∃ out, coins_by_block coinDb 100 = .ok ⟨out⟩ ∧
      ∀ x, x ∈ out.map (fun c => c.coin_id) ↔
        x ∈ [1, 2] ++ [2] ∧ ∃ r, coinDb.coin x = .ok (some r)) :=
  c10_dangling_entries_omitted coinDb 9 [1, 3] 100 7 [1, 2] [2] rfl rfl rfl rfl
    (by
      intro id hid
      simp only [List.mem_cons, List.not_mem_nil, or_false] at hid
      rcases hid with rfl | rfl
      · exact ⟨⟨some ⟨11⟩, rfl⟩, none, rfl⟩
      · exact ⟨⟨none, rfl⟩, none, rfl⟩)
    (by
      intro id hid
      simp only [List.mem_append, List.mem_cons, List.not_mem_nil, or_false] at hid
      rcases hid with (rfl | rfl) | rfl
      · exact ⟨⟨some ⟨11⟩, rfl⟩, none, rfl⟩
      · exact ⟨⟨some ⟨22⟩, rfl⟩, some ⟨7, 202, 203⟩, rfl⟩
      · exact ⟨⟨some ⟨22⟩, rfl⟩, some ⟨7, 202, 203⟩, rfl⟩)

end Routes
